import Mathlib

/-!
Verification of the Platform Audio Playback Bridge
(`src/modules/alexa/platform/include/AACE/Alexa/AudioPlayer.h`).

The header declares:
  * `enum class PlayerActivity` with six enumerators
    (IDLE, PLAYING, STOPPED, PAUSED, BUFFER_UNDERRUN, FINISHED);
  * `static const int64_t TIME_UNKNOWN = -1`;
  * a virtual hook `playerActivityChanged(PlayerActivity)` with an empty
    default body;
  * non-virtual `getPlayerPosition()`, `getPlayerDuration()` and
    `setEngineInterface(shared_ptr<AudioPlayerEngineInterface>)`, whose
    definitions live in the (absent) `AudioPlayer.cpp` — those parts are
    modelled from the spec below, each marked `Modelled from the spec:`;
  * the private member
    `std::weak_ptr<AudioPlayerEngineInterface> m_audioPlayerEngineInterface`;
  * an inline `operator<<` that switches over the six enumerators with no
    default branch and returns the stream.
-/

/-- The `enum class PlayerActivity` of `AudioPlayer.h`, lines 49-80, with its
six enumerators in declaration order. -/
inductive PlayerActivity
  | IDLE
  | PLAYING
  | STOPPED
  | PAUSED
  | BUFFER_UNDERRUN
  | FINISHED
deriving DecidableEq, Repr

/-- Underlying integer value of each enumerator. `enum class PlayerActivity`
gives no explicit values, so C++ assigns 0,1,2,... in declaration order. -/
def PlayerActivity.toRaw : PlayerActivity → Int
  | .IDLE => 0
  | .PLAYING => 1
  | .STOPPED => 2
  | .PAUSED => 3
  | .BUFFER_UNDERRUN => 4
  | .FINISHED => 5

/-- The six enumerators in declaration order. -/
def PlayerActivity.all : List PlayerActivity :=
  [.IDLE, .PLAYING, .STOPPED, .PAUSED, .BUFFER_UNDERRUN, .FINISHED]

/-- The sentinel `AudioPlayer::TIME_UNKNOWN = -1` (line 85): used when audio
time is unknown or indeterminate. -/
def TIME_UNKNOWN : Int := -1

/-- The case analysis of the `switch (state)` in `operator<<`
(`AudioPlayer.h` lines 127-146), on the underlying value of the enum: each of
the six enumerator cases writes its string and breaks; there is no `default`
branch, so an unmatched value selects no case (`none`). -/
def playerActivityCase (raw : Int) : Option String :=
  if raw = PlayerActivity.toRaw .IDLE then some "IDLE"
  else if raw = PlayerActivity.toRaw .PLAYING then some "PLAYING"
  else if raw = PlayerActivity.toRaw .STOPPED then some "STOPPED"
  else if raw = PlayerActivity.toRaw .PAUSED then some "PAUSED"
  else if raw = PlayerActivity.toRaw .BUFFER_UNDERRUN then some "BUFFER_UNDERRUN"
  else if raw = PlayerActivity.toRaw .FINISHED then some "FINISHED"
  else none

/-- The inline `operator<<(std::ostream&, const AudioPlayer::PlayerActivity&)`
(`AudioPlayer.h` lines 126-148): the stream is modelled by the string written
to it so far; a matched case appends its text, an unmatched value appends
nothing, and the (possibly extended) stream is returned. -/
def ostreamShiftPlayerActivity (stream : String) (raw : Int) : String :=
  match playerActivityCase raw with
  | some s => stream ++ s
  | none => stream

/-- Textual rendering of a (well-formed) `PlayerActivity` value: what
`operator<<` appends to an empty stream for that enumerator. -/
def renderPlayerActivity (v : PlayerActivity) : String :=
  ostreamShiftPlayerActivity "" v.toRaw

/-- C3: the textual rendering of `PlayerActivity` is total over the six
enumerators: each value takes exactly one switch case (never the fall-through),
yields a non-empty string, and the six strings are pairwise distinct. -/
theorem C3_rendering_total_nonempty_distinct :
    (∀ v : PlayerActivity,
        playerActivityCase v.toRaw = some (renderPlayerActivity v)
          ∧ 1 ≤ (renderPlayerActivity v).length)
      ∧ (PlayerActivity.all.map renderPlayerActivity).Nodup := by
  refine ⟨fun v => ?_, by decide⟩
  cases v <;> exact ⟨rfl, by decide⟩

/-- C9: each enumerator renders exactly as its own name. -/
theorem C9_rendering_exact_strings :
    renderPlayerActivity .IDLE = "IDLE"
      ∧ renderPlayerActivity .PLAYING = "PLAYING"
      ∧ renderPlayerActivity .STOPPED = "STOPPED"
      ∧ renderPlayerActivity .PAUSED = "PAUSED"
      ∧ renderPlayerActivity .BUFFER_UNDERRUN = "BUFFER_UNDERRUN"
      ∧ renderPlayerActivity .FINISHED = "FINISHED" := by
  refine ⟨rfl, rfl, rfl, rfl, rfl, rfl⟩

/-- C10: applied to a value outside the six declared enumerators, the switch
of `operator<<` matches no case and has no default branch: nothing is written
and the stream is returned unchanged. -/
theorem C10_unmatched_value_writes_nothing (stream : String) (raw : Int)
    (h : ∀ v : PlayerActivity, raw ≠ v.toRaw) :
    ostreamShiftPlayerActivity stream raw = stream := by
  unfold ostreamShiftPlayerActivity playerActivityCase
  rw [if_neg (h .IDLE), if_neg (h .PLAYING), if_neg (h .STOPPED),
    if_neg (h .PAUSED), if_neg (h .BUFFER_UNDERRUN), if_neg (h .FINISHED)]

/-- C10 witness: the out-of-range value 6 leaves a concrete stream unchanged. -/
theorem C10_unmatched_value_writes_nothing_witness :
    ostreamShiftPlayerActivity "state: " 6 = "state: " :=
  C10_unmatched_value_writes_nothing "state: " 6 (fun v => by cases v <;> decide)

/-- Identity of an `AudioPlayerEngineInterface` object on the engine side.
The weak reference stored by the bridge is modelled as an optional identity,
with liveness of the referenced object decided by the engine world below. -/
abbrev Channel := Nat

/-- A time value as the spec's `TimeValue` data model describes it: a
millisecond count that is either unknown (`TIME_UNKNOWN = -1`) or a
non-negative number of milliseconds. -/
inductive TimeValue
  | unknown
  | millis (n : Nat)
deriving DecidableEq, Repr

/-- Encoding of a `TimeValue` as the `int64_t` the C++ interface returns. -/
def TimeValue.toInt : TimeValue → Int
  | .unknown => TIME_UNKNOWN
  | .millis n => n

/-- Modelled from the spec: the engine-side world the bridge's weak channel
points into — which `AudioPlayerEngineInterface` objects are still alive, and
the position/duration values the live engine object reports when the bridge
delegates a time query through the channel (spec sections 2 and 4.2: time
queries are request/response through the channel; the values respect the
`TimeValue` invariant). The concrete engine implementation is absent from the
sources (only `AudioPlayer.h` is present). -/
structure EngineWorld where
  isAlive : Channel → Bool
  positionOf : Channel → TimeValue
  durationOf : Channel → TimeValue

/-- The bridge state declared in `AudioPlayer.h`: its only data member is the
private weak reference `m_audioPlayerEngineInterface` (line 123), default
initialized to empty (no channel attached) by the protected default
constructor (line 43). -/
structure AudioPlayer where
  m_audioPlayerEngineInterface : Option Channel := none
deriving DecidableEq, Repr

/-- Resolution (`std::weak_ptr::lock`) of the stored weak reference against
the engine world: an empty reference or an expired one (referenced object no
longer alive) resolves to nothing. -/
def weakLock (w : Option Channel) (env : EngineWorld) : Option Channel :=
  match w with
  | none => none
  | some c => if env.isAlive c then some c else none

/-- Modelled from the spec: `AudioPlayer::setEngineInterface` (declared at
line 120, defined in the absent `AudioPlayer.cpp`) — "replaces the stored
weak reference" (spec section 4.3): the engine-internal wiring call stores
the given channel as the new weak reference. -/
def AudioPlayer.setEngineInterface (p : AudioPlayer) (c : Channel) : AudioPlayer :=
  { p with m_audioPlayerEngineInterface := some c }

/-- Modelled from the spec: a generic outbound call from the bridge toward
the engine through the stored weak channel (spec section 4.4): the call first
resolves the weak reference and silently skips the call if the referenced
engine object no longer exists; otherwise the requested engine action runs.
The bridge itself is returned so the frame effect on its state is visible. -/
def AudioPlayer.outboundCall (p : AudioPlayer) (env : EngineWorld)
    (action : Channel → EngineWorld → EngineWorld) : AudioPlayer × EngineWorld :=
  match weakLock p.m_audioPlayerEngineInterface env with
  | some c => (p, action c env)
  | none => (p, env)

/-- Modelled from the spec: `AudioPlayer::getPlayerPosition` (declared at
line 104, defined in the absent `AudioPlayer.cpp`) — a synchronous pull
through the bridge toward the engine (spec section 2), subject to the
stale-reference rule (spec section 7): resolve the weak channel, delegate the
query to the live engine object, and yield `TIME_UNKNOWN` when no live
channel is attached. -/
def AudioPlayer.getPlayerPosition (p : AudioPlayer) (env : EngineWorld) : Int :=
  match weakLock p.m_audioPlayerEngineInterface env with
  | some c => (env.positionOf c).toInt
  | none => TIME_UNKNOWN

/-- Modelled from the spec: `AudioPlayer::getPlayerDuration` (declared at
line 112, defined in the absent `AudioPlayer.cpp`) — same shape as
`getPlayerPosition`, delegating the duration query. -/
def AudioPlayer.getPlayerDuration (p : AudioPlayer) (env : EngineWorld) : Int :=
  match weakLock p.m_audioPlayerEngineInterface env with
  | some c => (env.durationOf c).toInt
  | none => TIME_UNKNOWN

/-- The member functions declared by the `AudioPlayer` class in the header. -/
inductive AudioPlayerMethod
  | playerActivityChanged
  | getPlayerPosition
  | getPlayerDuration
  | setEngineInterface
deriving DecidableEq, Repr

/-- Which member functions `AudioPlayer.h` declares `virtual`, hence
overridable by the platform subclass through dynamic dispatch: only
`playerActivityChanged` (line 94) is virtual; `getPlayerPosition` (line 104),
`getPlayerDuration` (line 112) and `setEngineInterface` (line 120) are
declared without `virtual`. -/
def AudioPlayerMethod.isVirtual : AudioPlayerMethod → Bool
  | .playerActivityChanged => true
  | .getPlayerPosition => false
  | .getPlayerDuration => false
  | .setEngineInterface => false

/-- A concrete platform implementation extending the `AudioPlayer` base
class: the base-class state, the subclass state, and the subclass body of the
one virtual hook `playerActivityChanged` (the base default body is modelled
by `defaultPlayerActivityChangedBody` below). -/
structure PlatformAudioPlayer (σ : Type) where
  base : AudioPlayer
  platformState : σ
  onPlayerActivityChangedOverride : PlayerActivity → σ → σ

/-- Virtual dispatch of `playerActivityChanged(state)` on a platform
implementation: the engine's push invokes the subclass body with exactly the
pushed value; the header inspects, filters and validates nothing before the
dispatch, and the call has no return value to reject a transition with. -/
def PlatformAudioPlayer.playerActivityChanged {σ : Type}
    (p : PlatformAudioPlayer σ) (state : PlayerActivity) : PlatformAudioPlayer σ :=
  { p with platformState := p.onPlayerActivityChangedOverride state p.platformState }

/-- A finite sequence of engine pushes delivered to the bridge in order. -/
def enginePushSequence {σ : Type}
    (p : PlatformAudioPlayer σ) (pushes : List PlayerActivity) : PlatformAudioPlayer σ :=
  pushes.foldl PlatformAudioPlayer.playerActivityChanged p

/-- The empty default body of `playerActivityChanged` (`{}`, header line 94):
every state maps the subclass state to itself. -/
def defaultPlayerActivityChangedBody (σ : Type) : PlayerActivity → σ → σ :=
  fun _ s => s

/-- A platform implementation that keeps the base-class default hook body. -/
def defaultPlatformPlayer (b : AudioPlayer) : PlatformAudioPlayer Unit :=
  { base := b
    platformState := ()
    onPlayerActivityChangedOverride := defaultPlayerActivityChangedBody Unit }

/-- An observing platform implementation whose subclass state logs every hook
invocation it receives, in order. -/
def recordingObserver (b : AudioPlayer) (log : List PlayerActivity) :
    PlatformAudioPlayer (List PlayerActivity) :=
  { base := b
    platformState := log
    onPlayerActivityChangedOverride := fun s l => l ++ [s] }

/-- Delivering a push sequence to the recording observer appends exactly the
pushed values, in push order, to its log. -/
theorem recordingObserver_pushSequence (b : AudioPlayer) (log pushes : List PlayerActivity) :
    enginePushSequence (recordingObserver b log) pushes = recordingObserver b (log ++ pushes) := by
  induction pushes generalizing log with
  | nil => simp [enginePushSequence]
  | cons s rest ih =>
      have hstep : (recordingObserver b log).playerActivityChanged s
          = recordingObserver b (log ++ [s]) := rfl
      calc enginePushSequence (recordingObserver b log) (s :: rest)
          = enginePushSequence ((recordingObserver b log).playerActivityChanged s) rest := rfl
        _ = enginePushSequence (recordingObserver b (log ++ [s])) rest := by rw [hstep]
        _ = recordingObserver b ((log ++ [s]) ++ rest) := ih (log ++ [s])
        _ = recordingObserver b (log ++ s :: rest) := by simp

/-- C4: the bridge performs no transition validation: for every finite
sequence of `PlayerActivity` values the engine pushes, the observational hook
is invoked once per push with exactly the pushed value, in push order — in
particular for the sequence PLAYING, PAUSED, FINISHED — and no value is ever
rejected. -/
theorem C4_no_transition_validation (b : AudioPlayer) (pushes : List PlayerActivity) :
    (enginePushSequence (recordingObserver b []) pushes).platformState = pushes
      ∧ (enginePushSequence (recordingObserver b [])
            [.PLAYING, .PAUSED, .FINISHED]).platformState
          = [.PLAYING, .PAUSED, .FINISHED] := by
  constructor
  · rw [recordingObserver_pushSequence]
    simp [recordingObserver]
  · rfl

/-- C8: the default (non-overridden) `playerActivityChanged` is a no-op for
every argument and every sequence of arguments: the whole bridge object —
in particular the stored engine-interface reference — is unchanged, and the
call is total (never fails). -/
theorem C8_default_hook_noop (b : AudioPlayer) (pushes : List PlayerActivity) :
    enginePushSequence (defaultPlatformPlayer b) pushes = defaultPlatformPlayer b
      ∧ (enginePushSequence (defaultPlatformPlayer b) pushes).base.m_audioPlayerEngineInterface
          = b.m_audioPlayerEngineInterface := by
  have h : enginePushSequence (defaultPlatformPlayer b) pushes = defaultPlatformPlayer b := by
    induction pushes with
    | nil => rfl
    | cons s rest ih => exact ih
  exact ⟨h, by rw [h]; rfl⟩

/-- C1: once the engine object referenced by the attached channel is
destroyed (the stored weak reference is expired), every subsequent outbound
call through the channel is a silent no-op: the engine action is skipped, the
engine world is untouched, the bridge's own state is unchanged, the call is
total (no crash, no exception), and the delegated time queries degrade to
`TIME_UNKNOWN`. -/
theorem C1_expired_channel_silent_noop (p : AudioPlayer) (env : EngineWorld)
    (action : Channel → EngineWorld → EngineWorld) (c : Channel)
    (hstored : p.m_audioPlayerEngineInterface = some c)
    (hexpired : env.isAlive c = false) :
    p.outboundCall env action = (p, env)
      ∧ p.getPlayerPosition env = TIME_UNKNOWN
      ∧ p.getPlayerDuration env = TIME_UNKNOWN := by
  unfold AudioPlayer.outboundCall AudioPlayer.getPlayerPosition
    AudioPlayer.getPlayerDuration weakLock
  rw [hstored]
  simp [hexpired]

/-- An engine world in which every engine object has been destroyed. -/
def deadWorld : EngineWorld :=
  { isAlive := fun _ => false
    positionOf := fun _ => .unknown
    durationOf := fun _ => .unknown }

/-- An engine world in which every engine object is alive, reporting position
42 ms and duration 100 ms. -/
def liveWorld : EngineWorld :=
  { isAlive := fun _ => true
    positionOf := fun _ => .millis 42
    durationOf := fun _ => .millis 100 }

/-- A bridge whose weak reference stores channel 0. -/
def attachedPlayer : AudioPlayer :=
  { m_audioPlayerEngineInterface := some 0 }

/-- C1 witness: a bridge attached to channel 0 in a world where that engine
object is destroyed skips the outbound action and reports unknown times. -/
theorem C1_expired_channel_silent_noop_witness :
    attachedPlayer.outboundCall deadWorld (fun _ e => e) = (attachedPlayer, deadWorld)
      ∧ attachedPlayer.getPlayerPosition deadWorld = TIME_UNKNOWN
      ∧ attachedPlayer.getPlayerDuration deadWorld = TIME_UNKNOWN :=
  C1_expired_channel_silent_noop attachedPlayer deadWorld (fun _ e => e) 0 rfl rfl

/-- C2: `setEngineInterface` has last-write-wins overwrite semantics: after
attaching channel `a` and then channel `b`, the stored reference is exactly
`b`; resolving it yields `b` when alive and never yields `a`; and repeating
`setEngineInterface` with the same channel is idempotent. -/
theorem C2_setEngineInterface_last_write_wins (p : AudioPlayer) (a b : Channel)
    (env : EngineWorld) (hab : a ≠ b) :
    ((p.setEngineInterface a).setEngineInterface b).m_audioPlayerEngineInterface = some b
      ∧ weakLock ((p.setEngineInterface a).setEngineInterface b).m_audioPlayerEngineInterface env
          = (if env.isAlive b then some b else none)
      ∧ weakLock ((p.setEngineInterface a).setEngineInterface b).m_audioPlayerEngineInterface env
          ≠ some a
      ∧ (p.setEngineInterface b).setEngineInterface b = p.setEngineInterface b := by
  refine ⟨rfl, rfl, ?_, rfl⟩
  by_cases h : env.isAlive b
  · simp [AudioPlayer.setEngineInterface, weakLock, h, Ne.symm hab]
  · simp [AudioPlayer.setEngineInterface, weakLock, h]

/-- C2 witness: attaching channel 0 then channel 1 on a fresh bridge stores
channel 1, resolves to channel 1 in a live world, never to channel 0, and
re-attaching channel 1 changes nothing. -/
theorem C2_setEngineInterface_last_write_wins_witness :
    ((({} : AudioPlayer).setEngineInterface 0).setEngineInterface 1).m_audioPlayerEngineInterface
        = some 1
      ∧ weakLock ((({} : AudioPlayer).setEngineInterface 0).setEngineInterface 1).m_audioPlayerEngineInterface
            liveWorld
          = (if liveWorld.isAlive 1 then some 1 else none)
      ∧ weakLock ((({} : AudioPlayer).setEngineInterface 0).setEngineInterface 1).m_audioPlayerEngineInterface
            liveWorld
          ≠ some 0
      ∧ (({} : AudioPlayer).setEngineInterface 1).setEngineInterface 1
          = ({} : AudioPlayer).setEngineInterface 1 :=
  C2_setEngineInterface_last_write_wins {} 0 1 liveWorld (by decide)

/-- Every `TimeValue` encodes to the sentinel or to a non-negative count. -/
theorem TimeValue.toInt_unknown_or_nonneg (t : TimeValue) :
    t.toInt = TIME_UNKNOWN ∨ 0 ≤ t.toInt := by
  cases t with
  | unknown => exact Or.inl rfl
  | millis n => exact Or.inr (Int.ofNat_nonneg n)

/-- C5: every call to `getPlayerPosition` and `getPlayerDuration` returns a
value that is never less than `TIME_UNKNOWN = -1`: either exactly the
sentinel, or a valid non-negative millisecond count. -/
theorem C5_time_queries_never_below_sentinel (p : AudioPlayer) (env : EngineWorld) :
    (p.getPlayerPosition env = TIME_UNKNOWN ∨ 0 ≤ p.getPlayerPosition env)
      ∧ (p.getPlayerDuration env = TIME_UNKNOWN ∨ 0 ≤ p.getPlayerDuration env)
      ∧ TIME_UNKNOWN ≤ p.getPlayerPosition env
      ∧ TIME_UNKNOWN ≤ p.getPlayerDuration env := by
  have hval : ∀ t : TimeValue, t.toInt = TIME_UNKNOWN ∨ 0 ≤ t.toInt := by
    intro t
    cases t with
    | unknown => exact Or.inl rfl
    | millis n => exact Or.inr (Int.ofNat_nonneg n)
  have hpos : p.getPlayerPosition env = TIME_UNKNOWN ∨ 0 ≤ p.getPlayerPosition env := by
    unfold AudioPlayer.getPlayerPosition
    cases weakLock p.m_audioPlayerEngineInterface env with
    | none => exact Or.inl rfl
    | some c => exact hval (env.positionOf c)
  have hdur : p.getPlayerDuration env = TIME_UNKNOWN ∨ 0 ≤ p.getPlayerDuration env := by
    unfold AudioPlayer.getPlayerDuration
    cases weakLock p.m_audioPlayerEngineInterface env with
    | none => exact Or.inl rfl
    | some c => exact hval (env.durationOf c)
  have hlow : ∀ x : Int, x = TIME_UNKNOWN ∨ 0 ≤ x → TIME_UNKNOWN ≤ x := by
    intro x hx
    rcases hx with hx | hx
    · exact le_of_eq hx.symm
    · exact le_trans (by decide) hx
  exact ⟨hpos, hdur, hlow _ hpos, hlow _ hdur⟩

/-- C7: a freshly constructed bridge has no engine channel attached (the
weak member is default initialized to empty), and `getPlayerPosition` before
any `setEngineInterface` call returns `TIME_UNKNOWN = -1` in every engine
world. -/
theorem C7_fresh_bridge_position_unknown (env : EngineWorld) :
    ({} : AudioPlayer).m_audioPlayerEngineInterface = none
      ∧ ({} : AudioPlayer).getPlayerPosition env = TIME_UNKNOWN
      ∧ TIME_UNKNOWN = -1 :=
  ⟨rfl, rfl, rfl⟩

/-- C6 counterexample: the claim requires the platform subclass to override
`getPlayerPosition` and `getPlayerDuration`, but the header declares both
without `virtual` (lines 104 and 112), so no subclass override can supply
their return values through dynamic dispatch. -/
theorem C6_counterexample_time_queries_not_virtual :
    ¬(AudioPlayerMethod.isVirtual .getPlayerPosition = true
        ∧ AudioPlayerMethod.isVirtual .getPlayerDuration = true) := by
  decide

/-- C6 (amended): the time queries are non-virtual members of the core — not
overridable by the platform subclass — and their values are produced by the
core's own implementation, which delegates the query through the stored weak
engine channel when it resolves to a live engine object. -/
theorem C6_time_queries_delegate_to_engine (p : AudioPlayer) (env : EngineWorld)
    (c : Channel)
    (hstored : p.m_audioPlayerEngineInterface = some c)
    (halive : env.isAlive c = true) :
    AudioPlayerMethod.isVirtual .getPlayerPosition = false
      ∧ AudioPlayerMethod.isVirtual .getPlayerDuration = false
      ∧ p.getPlayerPosition env = (env.positionOf c).toInt
      ∧ p.getPlayerDuration env = (env.durationOf c).toInt := by
  refine ⟨rfl, rfl, ?_, ?_⟩
  · unfold AudioPlayer.getPlayerPosition weakLock
    rw [hstored]
    simp [halive]
  · unfold AudioPlayer.getPlayerDuration weakLock
    rw [hstored]
    simp [halive]

/-- C6 witness: a bridge attached to channel 0 in the live world reports the
engine-provided 42 ms position and 100 ms duration. -/
theorem C6_time_queries_delegate_to_engine_witness :
    AudioPlayerMethod.isVirtual .getPlayerPosition = false
      ∧ AudioPlayerMethod.isVirtual .getPlayerDuration = false
      ∧ attachedPlayer.getPlayerPosition liveWorld = (liveWorld.positionOf 0).toInt
      ∧ attachedPlayer.getPlayerDuration liveWorld = (liveWorld.durationOf 0).toInt :=
  C6_time_queries_delegate_to_engine attachedPlayer liveWorld 0 rfl rfl
